import Mathlib

/-!
Verification of the SRM strain-gauge control repository against its
natural-language specification.

Shallow embedding conventions:
* C `FLOAT32`/`DOUBLE64` values are modelled as real numbers (`ℝ`);
  machine floating-point rounding is outside the model.
* C integers (`INT16`, `INT32`) are modelled as `ℤ`; none of the verified
  code paths overflow their C ranges.
* Arrays indexed by the encoder count are total functions `Fin 1024 → ℝ`
  (`ENCODER_MAX_COUNT + 1 = 1024`).
* Decimal literals from the C headers (e.g. `SQRT_2OVER3`,
  `PI_2OVER3`) are kept as the exact decimal constants the source writes.
  The only exception is the angle step `6.28318530718 / n` in `dft`/`idft`,
  which is the source's decimal rendering of `2π/n` and is modelled as
  `2 * π / n` (the spec's round-trip property is stated "in exact real
  arithmetic").
* Each C function is embedded as a pure function from its read state to
  its written state, with the source's names kept where Lean allows.
-/

open Real

/-! ## Constants from KlabVector.h and srmcode.c -/

/-- `SQRT_2OVER3` from KlabVector.h. -/
def SQRT_2OVER3 : ℝ := 0.816496580927726

/-- `SQRT_1OVER2` from KlabVector.h. -/
def SQRT_1OVER2 : ℝ := 0.707106781186547

/-- `SQRT_1OVER3` from KlabVector.h. -/
def SQRT_1OVER3 : ℝ := 0.577350269189625

/-- `PI_2` (two pi) from KlabVector.h. -/
def PI_2 : ℝ := 6.283185307179586

/-- `PI_2OVER3` (2π/3) from KlabVector.h. -/
def PI_2OVER3 : ℝ := 2.094395102393195

/-- `ENCODER_MAX_COUNT` from srmcode.c. -/
def ENCODER_MAX_COUNT : ℕ := 1023

/-- `N_FFT`, the fixed transform length from srmcode.c. -/
def N_FFT : ℕ := 32

/-! ## KlabIMP.c — hysteresis comparator -/

/-- Embedding of `generate_phase_gateSignalSequence` (KlabIMP.c lines
217-244): the per-phase hysteresis comparator.  Returns 14 (HOLD) on the
strict in-band test, 10 (LOW) below the band, 15 (HIGH) above it, and 14
in the final fallback `else`. -/
noncomputable def generate_phase_gateSignalSequence
    (refCurrent fedCurrent hysterisis_limit : ℝ) : ℤ :=
  if fedCurrent > refCurrent - hysterisis_limit ∧
      fedCurrent < refCurrent + hysterisis_limit then
    14
  else if fedCurrent < refCurrent - hysterisis_limit then
    10
  else if fedCurrent > refCurrent + hysterisis_limit then
    15
  else
    14

/-- The condition under which `generate_phase_gateSignalSequence` reaches
its final `else` (fallback) branch: all three explicit guards are false. -/
def hysteresis_fallback_taken
    (refCurrent fedCurrent hysterisis_limit : ℝ) : Prop :=
  ¬(fedCurrent > refCurrent - hysterisis_limit ∧
      fedCurrent < refCurrent + hysterisis_limit) ∧
  ¬(fedCurrent < refCurrent - hysterisis_limit) ∧
  ¬(fedCurrent > refCurrent + hysterisis_limit)

/-! ## KlabVector.c — transforms and speed calculation -/

/-- Embedding of `KLAB_uvw2dq0` (KlabVector.c lines 29-38).  Input: the
three-phase values and the cached sine/cosine of the rotor angle; output:
the (d, q, zero) triple written by the function. -/
noncomputable def KLAB_uvw2dq0 (u v w sinθ cosθ : ℝ) : ℝ × ℝ × ℝ :=
  let alpha := SQRT_2OVER3 * (u - 0.5 * v - 0.5 * w)
  let beta := SQRT_1OVER2 * v - SQRT_1OVER2 * w
  let zero_ab := SQRT_1OVER3 * (u + v + w)
  (alpha * cosθ + beta * sinθ, -alpha * sinθ + beta * cosθ, zero_ab)

/-- Embedding of `KLAB_dq02uvw` (KlabVector.c lines 51-60).  Input: the
rotating-frame values and the cached sine/cosine; output: the (u, v, w)
triple written by the function. -/
noncomputable def KLAB_dq02uvw (d q zero sinθ cosθ : ℝ) : ℝ × ℝ × ℝ :=
  let alpha := d * cosθ - q * sinθ
  let beta := d * sinθ + q * cosθ
  let zero_ab := zero
  (SQRT_2OVER3 * alpha + SQRT_1OVER3 * zero_ab,
   -SQRT_2OVER3 * 0.5 * alpha + SQRT_1OVER2 * beta + SQRT_1OVER3 * zero_ab,
   -SQRT_2OVER3 * 0.5 * alpha - SQRT_1OVER2 * beta + SQRT_1OVER3 * zero_ab)

/-- Embedding of the elapsed-tick computation inside
`KLAB_speedCalc_update_speed` (KlabVector.c lines 84-91): the
`timerDiff` assignment, with the timer wraparound constant `(INT32)1e9`. -/
def KLAB_speedCalc_timerDiff (timerCount timer : ℤ) : ℤ :=
  if timerCount > timer then timerCount - timer
  else timerCount - timer + 1000000000

/-! ## srmcode.c — compensation update and recompute trigger -/

/-- Embedding of one bin's pass of the bang-bang compensation update in
`StrainGaugeRead` (srmcode.c lines 499-515).  Arguments follow the source
variables: `strain_avg_ffted` value at the bin, `strain_ref` at the bin,
`AdjustTorque` (scale), `hy_band`, current `compensation` at the bin,
`current_step`, `value_cutoff`, and `Proposed_Method_On`.  The three `if`
statements are applied in source order. -/
noncomputable def compensationUpdate
    (strain_avg_ffted strain_ref adjustTorque hy_band compensation
      current_step value_cutoff proposed_Method_On : ℝ) : ℝ :=
  let c1 :=
    if strain_avg_ffted > strain_ref * adjustTorque + hy_band then
      (compensation - current_step) * proposed_Method_On
    else compensation
  let c2 :=
    if strain_avg_ffted < strain_ref * adjustTorque - hy_band then
      (c1 + current_step) * proposed_Method_On
    else c1
  if strain_ref < value_cutoff then -100 else c2

/-- Embedding of the recompute-entry decision in `StrainGaugeRead`
(srmcode.c lines 436-440 and 516-519): given the previous and current
encoder counts, the current `rotate_period_count_cal` and the threshold
`avg_max_count * factor_cal_time`, returns whether the recompute body runs
on this sample together with the updated `rotate_period_count_cal`. -/
def strainGauge_recomputeTrigger
    (abz_prev abz rotate_period_count_cal threshold : ℤ) : Bool × ℤ :=
  if abz_prev - abz > 500 then
    if rotate_period_count_cal + 1 > threshold then (true, 0)
    else (false, rotate_period_count_cal + 1)
  else (false, rotate_period_count_cal)

/-! ## KlabIMP.c — square-wave reference generator -/

/-- Embedding of `generate_phase_square_reference` (KlabIMP.c lines
264-299): the rectangular waveform, with negative angles wrapped by one
full turn first. -/
noncomputable def generate_phase_square_reference
    (theta_on theta_off peak theta : ℝ) : ℝ :=
  let th := if theta < 0 then theta + PI_2 else theta
  if theta_on < theta_off then
    if theta_on < th ∧ th < theta_off then peak else 0
  else if theta_off < theta_on then
    if th > theta_on ∨ th < theta_off then peak else 0
  else 0

/-- The per-phase clamping applied at the end of
`generate_square_reference` (KlabIMP.c lines 319-342): first the
floor-at-zero `if`, then the cap-at-maximum `if`, in source order. -/
noncomputable def clampPhase (maxPhaseCurrent x : ℝ) : ℝ :=
  let x1 := if x < 0 then 0 else x
  if x1 > maxPhaseCurrent then maxPhaseCurrent else x1

/-- Embedding of `generate_square_reference` (KlabIMP.c lines 301-346):
u and w are assigned 0; v is the rectangular waveform at `theta -
PI_2OVER3` plus `compensation[rotateValue.abz]`; then each phase is
clamped.  The local `abz_compensation` computed at lines 304-309 is never
used by the function (the commented-out index) and is omitted. -/
noncomputable def generate_square_reference
    (theta_on theta_off peak maxPhaseCurrent theta : ℝ)
    (abz : Fin (ENCODER_MAX_COUNT + 1))
    (compensation : Fin (ENCODER_MAX_COUNT + 1) → ℝ) : ℝ × ℝ × ℝ :=
  let u : ℝ := 0
  let v : ℝ :=
    generate_phase_square_reference theta_on theta_off peak
      (theta - PI_2OVER3) + compensation abz
  let w : ℝ := 0
  (clampPhase maxPhaseCurrent u, clampPhase maxPhaseCurrent v,
   clampPhase maxPhaseCurrent w)

/-! ## KlabIMP.c — IMP current controller -/

/-- The discrete state-space data written by `KLAB_curCtrl_update_ssFunc`
and read by `KLAB_curCtrl_update_stateX` / `KLAB_curCtrl_generate_outputY`
(KlabIMP.h).  Only the matrix entries those functions touch are modelled;
the C functions never read the remaining entries of `A`, `C`. -/
structure DISCRETE_STATE_SPACE where
  A00 : ℝ
  A11 : ℝ
  A12 : ℝ
  A21 : ℝ
  A22 : ℝ
  B0 : ℝ
  B1 : ℝ
  B2 : ℝ
  C00 : ℝ
  C11 : ℝ
  C12 : ℝ
  C21 : ℝ
  C22 : ℝ
  D0 : ℝ
  D1 : ℝ
  D2 : ℝ

/-- Embedding of `KLAB_curCtrl_update_ssFunc` (KlabIMP.c lines 52-102):
the Tustin discretization of the internal-model controller for target
speed `rotOmega` and sample rate `fs`. -/
noncomputable def KLAB_curCtrl_update_ssFunc
    (rotOmega fs : ℝ) : DISCRETE_STATE_SPACE :=
  let omega0 := fs * 2
  let tmp_0 := omega0 * omega0
  let tmp_1 := 36 * rotOmega * rotOmega
  let tmp01 := 6 * omega0 * rotOmega
  let sigma1 := tmp_0 + tmp_1
  let sigma2 := tmp_0 - tmp_1
  let sigma3 := tmp01 + tmp_1
  let sigma4 := tmp01 - tmp_1
  let sigma5 := 2 * Real.sqrt fs
  { A00 := 1
    A11 := sigma2 / sigma1
    A12 := -2 * tmp01 / sigma1
    A21 := 2 * tmp01 / sigma1
    A22 := sigma2 / sigma1
    B0 := sigma5 * rotOmega / omega0
    B1 := -sigma5 * sigma3 / sigma1
    B2 := sigma5 * sigma4 / sigma1
    C00 := sigma5 / omega0
    C11 := sigma5 * omega0 / sigma1
    C12 := -sigma5 * 6 * rotOmega / sigma1
    C21 := sigma5 * 6 * rotOmega / sigma1
    C22 := sigma5 * omega0 / sigma1
    D0 := -rotOmega / omega0
    D1 := sigma3 / sigma1
    D2 := -sigma4 / sigma1 }

/-- Embedding of `KLAB_curCtrl_update_stateX` (KlabIMP.c lines 129-136):
one per-axis state update `X(n+1) = A X(n) + B u`. -/
noncomputable def KLAB_curCtrl_update_stateX
    (ssFunc : DISCRETE_STATE_SPACE) (stateX : ℝ × ℝ × ℝ)
    (inputU : ℝ) : ℝ × ℝ × ℝ :=
  (ssFunc.A00 * stateX.1 + ssFunc.B0 * inputU,
   ssFunc.A11 * stateX.2.1 + ssFunc.A12 * stateX.2.2 + ssFunc.B1 * inputU,
   ssFunc.A21 * stateX.2.1 + ssFunc.A22 * stateX.2.2 + ssFunc.B2 * inputU)

/-- Embedding of `KLAB_curCtrl_generate_outputY` (KlabIMP.c lines
113-118): the per-axis output `Y = C X + D u`. -/
noncomputable def KLAB_curCtrl_generate_outputY
    (ssFunc : DISCRETE_STATE_SPACE) (stateX : ℝ × ℝ × ℝ)
    (inputU : ℝ) : ℝ × ℝ × ℝ :=
  (ssFunc.C00 * stateX.1 + ssFunc.D0 * inputU,
   ssFunc.C11 * stateX.2.1 + ssFunc.C12 * stateX.2.2 + ssFunc.D1 * inputU,
   ssFunc.C21 * stateX.2.1 + ssFunc.C22 * stateX.2.2 + ssFunc.D2 * inputU)

/-- `n` consecutive applications of `KLAB_curCtrl_update_stateX` with the
same tracking-error input (n-fold tick iteration). -/
noncomputable def KLAB_curCtrl_stateX_iter
    (ssFunc : DISCRETE_STATE_SPACE) (inputU : ℝ) :
    ℕ → (ℝ × ℝ × ℝ) → ℝ × ℝ × ℝ
  | 0, x => x
  | n + 1, x =>
    KLAB_curCtrl_update_stateX ssFunc
      (KLAB_curCtrl_stateX_iter ssFunc inputU n x) inputU

/-! ## srmcode.c — incremental averaging in StrainGaugeRead -/

/-- The three position-indexed tables mutated by the averaging part of
`StrainGaugeRead`: `avg_record_times` (per-bin visit counters, stored as
FLOAT32 in the source), `strain_avg_temp` (running averages) and
`strain_avg` (the stable-average snapshot). -/
@[ext]
structure AvgState where
  avg_record_times : Fin (ENCODER_MAX_COUNT + 1) → ℝ
  strain_avg_temp : Fin (ENCODER_MAX_COUNT + 1) → ℝ
  strain_avg : Fin (ENCODER_MAX_COUNT + 1) → ℝ

/-- Embedding of one effective learning-tick visit in `StrainGaugeRead`
(srmcode.c lines 407-426), i.e. one pass with `abz_prev ≠ abz`: the
visit counter at the current bin is incremented, the running average is
updated incrementally with the new sample, and if the incremented
counter exceeds `avg_max_count` the whole `strain_avg_temp` table is
copied into `strain_avg` and both `strain_avg_temp` and
`avg_record_times` are cleared. -/
noncomputable def strainGaugeVisit (avg_max_count : ℝ)
    (abz : Fin (ENCODER_MAX_COUNT + 1)) (strain : ℝ)
    (st : AvgState) : AvgState :=
  let times :=
    Function.update st.avg_record_times abz (st.avg_record_times abz + 1)
  let temp :=
    Function.update st.strain_avg_temp abz
      (st.strain_avg_temp abz +
        (strain - st.strain_avg_temp abz) / (st.avg_record_times abz + 1))
  if times abz > avg_max_count then
    { avg_record_times := 0, strain_avg_temp := 0, strain_avg := temp }
  else
    { avg_record_times := times, strain_avg_temp := temp,
      strain_avg := st.strain_avg }

/-- `n` consecutive visits to the same bin with the same sample value. -/
noncomputable def strainGaugeVisits (avg_max_count : ℝ)
    (abz : Fin (ENCODER_MAX_COUNT + 1)) (strain : ℝ) :
    ℕ → AvgState → AvgState
  | 0, st => st
  | n + 1, st =>
    strainGaugeVisit avg_max_count abz strain
      (strainGaugeVisits avg_max_count abz strain n st)

/-! ## srmcode.c — discrete Fourier transform pair -/

/-- Real part of the forward transform `dft` (srmcode.c lines 339-359):
`a[k] = Σ_i cos(i k q) x[i] + sin(i k q) y[i]` with `q = 2π/n` (the
source writes the angle constant as the decimal `6.28318530718`). -/
noncomputable def dft_a (n : ℕ) (x y : Fin n → ℝ) (k : Fin n) : ℝ :=
  ∑ i : Fin n,
    (Real.cos ((i : ℝ) * ((k : ℝ) * (2 * π / n))) * x i +
      Real.sin ((i : ℝ) * ((k : ℝ) * (2 * π / n))) * y i)

/-- Imaginary part of the forward transform `dft` (srmcode.c lines
339-359): `b[k] = Σ_i cos(i k q) y[i] - sin(i k q) x[i]`. -/
noncomputable def dft_b (n : ℕ) (x y : Fin n → ℝ) (k : Fin n) : ℝ :=
  ∑ i : Fin n,
    (Real.cos ((i : ℝ) * ((k : ℝ) * (2 * π / n))) * y i -
      Real.sin ((i : ℝ) * ((k : ℝ) * (2 * π / n))) * x i)

/-- Real part of the inverse transform `idft` (srmcode.c lines 361-387):
same loops with the sine term negated (`s = sin(d) * (-1)`), scaled by
`1/n` at the end. -/
noncomputable def idft_a (n : ℕ) (x y : Fin n → ℝ) (k : Fin n) : ℝ :=
  (1 / (n : ℝ)) *
    ∑ i : Fin n,
      (Real.cos ((i : ℝ) * ((k : ℝ) * (2 * π / n))) * x i +
        -Real.sin ((i : ℝ) * ((k : ℝ) * (2 * π / n))) * y i)

/-- Imaginary part of the inverse transform `idft` (srmcode.c lines
361-387). -/
noncomputable def idft_b (n : ℕ) (x y : Fin n → ℝ) (k : Fin n) : ℝ :=
  (1 / (n : ℝ)) *
    ∑ i : Fin n,
      (Real.cos ((i : ℝ) * ((k : ℝ) * (2 * π / n))) * y i -
        -Real.sin ((i : ℝ) * ((k : ℝ) * (2 * π / n))) * x i)

/-! ## Theorems -/

/-- C4 counterexample: the claim quantifies over every band.  At
reference 0, feedback 0 and band -1 the feedback exceeds
reference + band, so the claim requires the HIGH code 15, but the
comparator returns the LOW code 10. -/
theorem c4_counterexample :
    generate_phase_gateSignalSequence 0 0 (-1) = 10 ∧
      (0 : ℝ) > 0 + (-1) ∧ (10 : ℤ) ≠ 15 := by
  refine ⟨?_, by norm_num, by decide⟩
  unfold generate_phase_gateSignalSequence
  norm_num

/-- C4 (amended): for a nonnegative band, the per-phase hysteresis
comparator returns the HOLD code 14 exactly on the closed interval
[reference - band, reference + band], the LOW code 10 strictly below it
and the HIGH code 15 strictly above it; the spec's concrete table
(reference 10, band 1) is an instance. -/
theorem c4_hysteresis_codes (refC fedC band : ℝ) (hband : 0 ≤ band) :
    generate_phase_gateSignalSequence refC fedC band =
      if refC - band ≤ fedC ∧ fedC ≤ refC + band then 14
      else if fedC < refC - band then 10
      else 15 := by
  unfold generate_phase_gateSignalSequence
  by_cases hL : fedC < refC - band
  · have hnotin : ¬(fedC > refC - band ∧ fedC < refC + band) := by
      rintro ⟨h, -⟩; linarith
    have hnotin2 : ¬(refC - band ≤ fedC ∧ fedC ≤ refC + band) := by
      rintro ⟨h, -⟩; linarith
    rw [if_neg hnotin, if_pos hL, if_neg hnotin2, if_pos hL]
  · push_neg at hL
    by_cases hH : fedC > refC + band
    · have hnotin : ¬(fedC > refC - band ∧ fedC < refC + band) := by
        rintro ⟨-, h⟩; linarith
      have hnotL : ¬(fedC < refC - band) := by linarith
      have hnotin2 : ¬(refC - band ≤ fedC ∧ fedC ≤ refC + band) := by
        rintro ⟨-, h⟩; linarith
      rw [if_neg hnotin, if_neg hnotL, if_pos hH, if_neg hnotin2,
        if_neg hnotL]
    · push_neg at hH
      have hin2 : refC - band ≤ fedC ∧ fedC ≤ refC + band := ⟨hL, hH⟩
      rw [if_pos hin2]
      by_cases hin : fedC > refC - band ∧ fedC < refC + band
      · rw [if_pos hin]
      · rw [if_neg hin, if_neg (by linarith : ¬(fedC < refC - band)),
          if_neg (by linarith : ¬(fedC > refC + band))]

/-- C4 witness: the amended theorem applied at reference 10,
feedback 11.5, band 1. -/
theorem c4_witness :
    (0 : ℝ) ≤ 1 ∧
      generate_phase_gateSignalSequence 10 11.5 1 =
        (if (10 : ℝ) - 1 ≤ 11.5 ∧ (11.5 : ℝ) ≤ 10 + 1 then 14
         else if (11.5 : ℝ) < 10 - 1 then 10
         else 15) :=
  ⟨by norm_num, c4_hysteresis_codes 10 11.5 1 (by norm_num)⟩

/-- C5 counterexample: at reference 10, feedback 9, band 1 (feedback
exactly on the lower band edge) all three explicit guards of the
comparator are false, so the final fallback branch is taken; it still
returns the HOLD code 14. -/
theorem c5_counterexample :
    hysteresis_fallback_taken 10 9 1 ∧
      generate_phase_gateSignalSequence 10 9 1 = 14 := by
  constructor
  · refine ⟨?_, ?_, ?_⟩ <;> norm_num
  · unfold generate_phase_gateSignalSequence
    norm_num

/-- C5 (amended): because the first guard tests the open interval, the
fallback branch of the per-phase comparator is taken exactly when the
feedback sits on a band edge (feedback = reference - band or
reference + band) while lying inside the closed band; whenever it is
taken the comparator still returns the HOLD code 14, duplicating the
in-band case. -/
theorem c5_fallback_characterization (refC fedC band : ℝ) :
    (hysteresis_fallback_taken refC fedC band ↔
      (fedC = refC - band ∨ fedC = refC + band) ∧
        refC - band ≤ fedC ∧ fedC ≤ refC + band) ∧
    (hysteresis_fallback_taken refC fedC band →
      generate_phase_gateSignalSequence refC fedC band = 14) := by
  constructor
  · unfold hysteresis_fallback_taken
    constructor
    · rintro ⟨h1, h2, h3⟩
      push_neg at h1 h2 h3
      rcases eq_or_lt_of_le h2 with he | hlt
      · exact ⟨Or.inl he.symm, h2, h3⟩
      · exact ⟨Or.inr (le_antisymm h3 (h1 hlt)), h2, h3⟩
    · rintro ⟨he, hge, hle⟩
      refine ⟨?_, ?_, ?_⟩
      · rintro ⟨hgt, hlt⟩
        rcases he with h | h <;> linarith
      · intro h; linarith
      · intro h; linarith
  · rintro ⟨h1, h2, h3⟩
    unfold generate_phase_gateSignalSequence
    rw [if_neg h1, if_neg h2, if_neg h3]

/-- C5 witness: the amended characterization applied at reference 10,
feedback 9, band 1. -/
theorem c5_witness :
    (hysteresis_fallback_taken 10 9 1 ↔
      ((9 : ℝ) = 10 - 1 ∨ (9 : ℝ) = 10 + 1) ∧
        (10 : ℝ) - 1 ≤ 9 ∧ (9 : ℝ) ≤ 10 + 1) ∧
    (hysteresis_fallback_taken 10 9 1 →
      generate_phase_gateSignalSequence 10 9 1 = 14) :=
  c5_fallback_characterization 10 9 1

/-- C6 counterexample: the source condition is the strict
`timerCount > timer`, so at equal timer readings the elapsed count is
the wraparound constant 1e9, not 0 as the claim states. -/
theorem c6_counterexample :
    KLAB_speedCalc_timerDiff 5 5 = 1000000000 ∧
      KLAB_speedCalc_timerDiff 5 5 ≠ 5 - 5 := by
  constructor <;> decide

/-- C6 (amended): the elapsed tick count is `timerCount - timer` when
`timerCount` is strictly greater than the stored reading, and
`timerCount - timer + 1e9` otherwise — in particular at equality it is
1e9, not 0. -/
theorem c6_timerDiff (timerCount timer : ℤ) :
    (timer < timerCount →
      KLAB_speedCalc_timerDiff timerCount timer = timerCount - timer) ∧
    (timerCount ≤ timer →
      KLAB_speedCalc_timerDiff timerCount timer =
        timerCount - timer + 1000000000) := by
  unfold KLAB_speedCalc_timerDiff
  constructor
  · intro h; rw [if_pos h]
  · intro h; rw [if_neg (not_lt.mpr h)]

/-- C6 witness: the amended theorem applied at timer readings 7 and 3. -/
theorem c6_witness :
    ((3 : ℤ) < 7 → KLAB_speedCalc_timerDiff 7 3 = 7 - 3) ∧
    ((7 : ℤ) ≤ 3 → KLAB_speedCalc_timerDiff 7 3 = 7 - 3 + 1000000000) :=
  c6_timerDiff 7 3

/-- C7 counterexample: with the previous count 1000 and the current
count 499 the decrease is 501, which is not more than 512, yet the
recompute body runs (counter 200 against threshold 200): the source
wrap test is `abz_prev - abz > 500`, not `> 512`. -/
theorem c7_counterexample :
    (strainGauge_recomputeTrigger 1000 499 200 200).1 = true ∧
      ¬((1000 : ℤ) - 499 > 512) := by
  constructor <;> decide

/-- C7 (amended): the learning engine runs the recompute body on a
sample exactly when the encoder count decreased by more than 500
(not 512) relative to the previous sample and the
`rotate_period_count_cal` counter, after the increment performed by the
wrap detection, exceeds `avg_max_count * factor_cal_time`. -/
theorem c7_recompute_trigger (abz_prev abz count threshold : ℤ) :
    (strainGauge_recomputeTrigger abz_prev abz count threshold).1 = true ↔
      abz_prev - abz > 500 ∧ count + 1 > threshold := by
  unfold strainGauge_recomputeTrigger
  by_cases h1 : abz_prev - abz > 500
  · rw [if_pos h1]
    by_cases h2 : count + 1 > threshold
    · rw [if_pos h2]; simp [h1, h2]
    · rw [if_neg h2]; simp [h1, h2]
  · rw [if_neg h1]; simp [h1]

/-- C7 witness: the amended trigger characterization applied at the
counterexample's sample. -/
theorem c7_witness :
    (strainGauge_recomputeTrigger 1000 499 200 200).1 = true ↔
      (1000 : ℤ) - 499 > 500 ∧ (200 : ℤ) + 1 > 200 :=
  c7_recompute_trigger 1000 499 200 200

/-- C2 counterexample: with the enable flag at 0, a measured value below
reference*scale - band does not increase the compensation by one step:
the whole branch result is multiplied by the flag, zeroing the bin
(the source computes (compensation + step) * Proposed_Method_On). -/
theorem c2_counterexample :
    compensationUpdate 0 2 1 1 5 1 0 0 = 0 ∧ (0 : ℝ) ≠ 5 + 1 := by
  constructor
  · unfold compensationUpdate
    norm_num
  · norm_num

/-- C2 (amended): for a nonnegative band, one pass of the bang-bang
update computes: the cutoff override last (reference below the cutoff
forces the sentinel -100 regardless of the measured value); otherwise a
value above reference*scale + band yields (compensation - step) * flag
and a value below reference*scale - band yields
(compensation + step) * flag — one exact step down or up when the
proposed-method flag is 1, but a zeroed bin (not a held one) when the
flag is 0. -/
theorem c2_bangbang_update
    (v r scale band comp step cutoff flag : ℝ) (hband : 0 ≤ band) :
    compensationUpdate v r scale band comp step cutoff flag =
      if r < cutoff then -100
      else if v > r * scale + band then (comp - step) * flag
      else if v < r * scale - band then (comp + step) * flag
      else comp := by
  simp only [compensationUpdate]
  split_ifs <;> first | rfl | linarith

/-- C2 witness: the amended theorem applied with the flag set, a unit
band and a measured value above the upper band edge. -/
theorem c2_witness :
    (0 : ℝ) ≤ 1 ∧
      compensationUpdate 10 2 1 1 5 1 0 1 =
        (if (2 : ℝ) < 0 then -100
         else if (10 : ℝ) > 2 * 1 + 1 then (5 - 1) * 1
         else if (10 : ℝ) < 2 * 1 - 1 then (5 + 1) * 1
         else 5) :=
  ⟨by norm_num, c2_bangbang_update 10 2 1 1 5 1 0 1 (by norm_num)⟩

/-- The sequential floor-then-cap clamp stays in [0, max] whenever the
maximum is nonnegative. -/
theorem clampPhase_mem (maxPhaseCurrent x : ℝ) (h : 0 ≤ maxPhaseCurrent) :
    0 ≤ clampPhase maxPhaseCurrent x ∧
      clampPhase maxPhaseCurrent x ≤ maxPhaseCurrent := by
  simp only [clampPhase]
  split_ifs <;> constructor <;> linarith

/-- C10: for every input with a nonnegative configured maximum, the
square-wave reference generator outputs 0 on the u and w phases; only
the v phase carries the rectangular waveform evaluated at theta -
PI_2OVER3 plus the compensation entry at the current position, clamped
to [0, maxPhaseCurrent]. -/
theorem c10_square_reference
    (theta_on theta_off peak maxPhaseCurrent theta : ℝ)
    (abz : Fin (ENCODER_MAX_COUNT + 1))
    (compensation : Fin (ENCODER_MAX_COUNT + 1) → ℝ)
    (hmax : 0 ≤ maxPhaseCurrent) :
    (generate_square_reference theta_on theta_off peak maxPhaseCurrent
        theta abz compensation).1 = 0 ∧
    (generate_square_reference theta_on theta_off peak maxPhaseCurrent
        theta abz compensation).2.2 = 0 ∧
    (generate_square_reference theta_on theta_off peak maxPhaseCurrent
        theta abz compensation).2.1 =
      clampPhase maxPhaseCurrent
        (generate_phase_square_reference theta_on theta_off peak
          (theta - PI_2OVER3) + compensation abz) ∧
    0 ≤ (generate_square_reference theta_on theta_off peak maxPhaseCurrent
        theta abz compensation).2.1 ∧
    (generate_square_reference theta_on theta_off peak maxPhaseCurrent
        theta abz compensation).2.1 ≤ maxPhaseCurrent := by
  have hzero : clampPhase maxPhaseCurrent 0 = 0 := by
    simp only [clampPhase]
    rw [if_neg (by norm_num : ¬((0 : ℝ) < 0)),
      if_neg (not_lt.mpr hmax)]
  have hv := clampPhase_mem maxPhaseCurrent
    (generate_phase_square_reference theta_on theta_off peak
      (theta - PI_2OVER3) + compensation abz) hmax
  exact ⟨hzero, hzero, rfl, hv.1, hv.2⟩

/-- C10 witness: the theorem applied at theta_on 1, theta_off 2,
peak 5, maximum 13, theta 2, position 0 and the all-zero compensation
table. -/
theorem c10_witness :
    (0 : ℝ) ≤ 13 ∧
      ((generate_square_reference 1 2 5 13 2 0 0).1 = 0 ∧
       (generate_square_reference 1 2 5 13 2 0 0).2.2 = 0 ∧
       (generate_square_reference 1 2 5 13 2 0 0).2.1 =
         clampPhase 13
           (generate_phase_square_reference 1 2 5 (2 - PI_2OVER3) +
             (0 : Fin (ENCODER_MAX_COUNT + 1) → ℝ) 0) ∧
       0 ≤ (generate_square_reference 1 2 5 13 2 0 0).2.1 ∧
       (generate_square_reference 1 2 5 13 2 0 0).2.1 ≤ 13) :=
  ⟨by norm_num, c10_square_reference 1 2 5 13 2 0 0 (by norm_num)⟩

/-- C9: at u = 1, v = 0, w = -1 with sin 0, cos 1 the forward transform
gives d within 1e-4 of 1.2247 (alpha equals d at this angle), q within
1e-4 of 0.7071 (beta equals q), and zero exactly 0; feeding the result
through the inverse transform at the same angle returns (u, v, w)
within 1e-5. -/
theorem c9_transform_roundtrip :
    |(KLAB_uvw2dq0 1 0 (-1) 0 1).1 - 1.2247| < 1e-4 ∧
    |(KLAB_uvw2dq0 1 0 (-1) 0 1).2.1 - 0.7071| < 1e-4 ∧
    (KLAB_uvw2dq0 1 0 (-1) 0 1).2.2 = 0 ∧
    |(KLAB_dq02uvw (KLAB_uvw2dq0 1 0 (-1) 0 1).1
        (KLAB_uvw2dq0 1 0 (-1) 0 1).2.1
        (KLAB_uvw2dq0 1 0 (-1) 0 1).2.2 0 1).1 - 1| < 1e-5 ∧
    |(KLAB_dq02uvw (KLAB_uvw2dq0 1 0 (-1) 0 1).1
        (KLAB_uvw2dq0 1 0 (-1) 0 1).2.1
        (KLAB_uvw2dq0 1 0 (-1) 0 1).2.2 0 1).2.1 - 0| < 1e-5 ∧
    |(KLAB_dq02uvw (KLAB_uvw2dq0 1 0 (-1) 0 1).1
        (KLAB_uvw2dq0 1 0 (-1) 0 1).2.1
        (KLAB_uvw2dq0 1 0 (-1) 0 1).2.2 0 1).2.2 - (-1)| < 1e-5 := by
  simp only [KLAB_uvw2dq0, KLAB_dq02uvw, SQRT_2OVER3, SQRT_1OVER2,
    SQRT_1OVER3]
  norm_num [abs_lt]

/-- After `j` visits (1 ≤ j ≤ horizon) of bin `k` with the constant
sample `v`, starting from a state whose counter and running average at
`k` are 0: the counter at `k` is `j`, the running average at `k` is `v`,
every other bin is untouched, and no snapshot has happened. -/
theorem strainGaugeVisits_invariant (H : ℕ)
    (k : Fin (ENCODER_MAX_COUNT + 1)) (v : ℝ) (st : AvgState)
    (h0 : st.avg_record_times k = 0) (h1 : st.strain_avg_temp k = 0) :
    ∀ j, 1 ≤ j → j ≤ H →
      strainGaugeVisits (H : ℝ) k v j st =
        { avg_record_times := Function.update st.avg_record_times k (j : ℝ)
          strain_avg_temp := Function.update st.strain_avg_temp k v
          strain_avg := st.strain_avg } := by
  intro j hj1
  induction j, hj1 using Nat.le_induction with
  | base =>
    intro hH
    have hHr : (1 : ℝ) ≤ (H : ℝ) := by exact_mod_cast hH
    simp only [strainGaugeVisits, strainGaugeVisit, h0, h1,
      Function.update_same]
    rw [if_neg (by linarith)]
    ext i <;> simp [Nat.cast_one]
  | succ j hj1 ih =>
    intro hH
    have hjH : j ≤ H := Nat.le_of_succ_le hH
    have hHr : ((j : ℝ) + 1) ≤ (H : ℝ) := by exact_mod_cast hH
    simp only [strainGaugeVisits]
    rw [ih hjH]
    simp only [strainGaugeVisit, Function.update_same, Function.update_idem]
    rw [if_neg (by linarith)]
    ext i <;> push_cast <;> simp [sub_self]

/-- C3: starting from zero counter and running average at bin k, after
exactly H constant-v visits to k (H the configured horizon) the running
average at k equals v and no snapshot has occurred; the H+1-th visit to
k (with any sample w) copies the whole running-average table — bin k
updated with w, all other bins as they stood — into the stable-average
table and clears every visit counter and every running-average
accumulator, not just bin k's. -/
theorem c3_incremental_average (H : ℕ)
    (k : Fin (ENCODER_MAX_COUNT + 1)) (v w : ℝ) (st : AvgState)
    (hH : 1 ≤ H)
    (h0 : st.avg_record_times k = 0) (h1 : st.strain_avg_temp k = 0) :
    (strainGaugeVisits (H : ℝ) k v H st).strain_avg_temp k = v ∧
    (strainGaugeVisits (H : ℝ) k v H st).strain_avg = st.strain_avg ∧
    (strainGaugeVisit (H : ℝ) k w
        (strainGaugeVisits (H : ℝ) k v H st)).strain_avg =
      Function.update st.strain_avg_temp k (v + (w - v) / ((H : ℝ) + 1)) ∧
    (strainGaugeVisit (H : ℝ) k w
        (strainGaugeVisits (H : ℝ) k v H st)).avg_record_times = 0 ∧
    (strainGaugeVisit (H : ℝ) k w
        (strainGaugeVisits (H : ℝ) k v H st)).strain_avg_temp = 0 := by
  have hinv := strainGaugeVisits_invariant H k v st h0 h1 H hH le_rfl
  have hvisit :
      strainGaugeVisit (H : ℝ) k w
        ({ avg_record_times := Function.update st.avg_record_times k (H : ℝ)
           strain_avg_temp := Function.update st.strain_avg_temp k v
           strain_avg := st.strain_avg } : AvgState) =
      { avg_record_times := 0
        strain_avg_temp := 0
        strain_avg :=
          Function.update st.strain_avg_temp k
            (v + (w - v) / ((H : ℝ) + 1)) } := by
    simp only [strainGaugeVisit, Function.update_same, Function.update_idem]
    rw [if_pos (lt_add_one ((H : ℝ)))]
  rw [hinv, hvisit]
  exact ⟨Function.update_same k v st.strain_avg_temp, rfl, rfl, rfl, rfl⟩

/-- C3 witness: the theorem applied with horizon 1, bin 0, constant
sample 3, follow-up sample 5 and the all-zero initial tables. -/
theorem c3_witness :
    (strainGaugeVisits ((1 : ℕ) : ℝ) 0 3 1
        (AvgState.mk 0 0 0)).strain_avg_temp 0 = 3 ∧
    (strainGaugeVisits ((1 : ℕ) : ℝ) 0 3 1
        (AvgState.mk 0 0 0)).strain_avg = (AvgState.mk 0 0 0).strain_avg ∧
    (strainGaugeVisit ((1 : ℕ) : ℝ) 0 5
        (strainGaugeVisits ((1 : ℕ) : ℝ) 0 3 1
          (AvgState.mk 0 0 0))).strain_avg =
      Function.update (AvgState.mk 0 0 0).strain_avg_temp 0
        (3 + (5 - 3) / (((1 : ℕ) : ℝ) + 1)) ∧
    (strainGaugeVisit ((1 : ℕ) : ℝ) 0 5
        (strainGaugeVisits ((1 : ℕ) : ℝ) 0 3 1
          (AvgState.mk 0 0 0))).avg_record_times = 0 ∧
    (strainGaugeVisit ((1 : ℕ) : ℝ) 0 5
        (strainGaugeVisits ((1 : ℕ) : ℝ) 0 3 1
          (AvgState.mk 0 0 0))).strain_avg_temp = 0 :=
  c3_incremental_average 1 0 3 5 (AvgState.mk 0 0 0) le_rfl rfl rfl

/-- The denominator sigma1 of the Tustin discretization is positive for
any positive sample rate. -/
theorem imp_sigma1_pos (rotOmega fs : ℝ) (hfs : 0 < fs) :
    0 < fs * 2 * (fs * 2) + 36 * rotOmega * rotOmega := by
  nlinarith [sq_nonneg rotOmega, mul_pos hfs hfs]

/-- One zero-error tick: the first state component is held exactly
(A00 = 1) and the rotating pair (x1, x2) is mapped by a rotation, so its
squared norm is preserved. -/
theorem imp_update_stateX_zero_error (rotOmega fs : ℝ) (hfs : 0 < fs)
    (x : ℝ × ℝ × ℝ) :
    (KLAB_curCtrl_update_stateX
        (KLAB_curCtrl_update_ssFunc rotOmega fs) x 0).1 = x.1 ∧
    (KLAB_curCtrl_update_stateX
        (KLAB_curCtrl_update_ssFunc rotOmega fs) x 0).2.1 ^ 2 +
      (KLAB_curCtrl_update_stateX
        (KLAB_curCtrl_update_ssFunc rotOmega fs) x 0).2.2 ^ 2 =
      x.2.1 ^ 2 + x.2.2 ^ 2 := by
  have h1' : fs * 2 * (fs * 2) + 36 * rotOmega * rotOmega ≠ 0 :=
    ne_of_gt (imp_sigma1_pos rotOmega fs hfs)
  constructor
  · simp [KLAB_curCtrl_update_stateX, KLAB_curCtrl_update_ssFunc]
  · simp only [KLAB_curCtrl_update_stateX, KLAB_curCtrl_update_ssFunc]
    field_simp
    ring

/-- Any number of zero-error ticks hold the first state component and
the squared norm of the rotating pair. -/
theorem imp_stateX_iter_zero_error (rotOmega fs : ℝ) (hfs : 0 < fs) :
    ∀ (n : ℕ) (x : ℝ × ℝ × ℝ),
      (KLAB_curCtrl_stateX_iter
          (KLAB_curCtrl_update_ssFunc rotOmega fs) 0 n x).1 = x.1 ∧
      (KLAB_curCtrl_stateX_iter
          (KLAB_curCtrl_update_ssFunc rotOmega fs) 0 n x).2.1 ^ 2 +
        (KLAB_curCtrl_stateX_iter
          (KLAB_curCtrl_update_ssFunc rotOmega fs) 0 n x).2.2 ^ 2 =
        x.2.1 ^ 2 + x.2.2 ^ 2 := by
  intro n
  induction n with
  | zero => exact fun x => ⟨rfl, rfl⟩
  | succ n ih =>
    intro x
    obtain ⟨ih1, ih2⟩ := ih x
    obtain ⟨h1, h2⟩ := imp_update_stateX_zero_error rotOmega fs hfs
      (KLAB_curCtrl_stateX_iter (KLAB_curCtrl_update_ssFunc rotOmega fs) 0 n x)
    simp only [KLAB_curCtrl_stateX_iter]
    exact ⟨h1.trans ih1, h2.trans ih2⟩

/-- Under zero error the first output component is a fixed scalar times
the first state component. -/
theorem imp_outputY_fst (rotOmega fs : ℝ) (x : ℝ × ℝ × ℝ) :
    (KLAB_curCtrl_generate_outputY
        (KLAB_curCtrl_update_ssFunc rotOmega fs) x 0).1 =
      2 * Real.sqrt fs / (fs * 2) * x.1 := by
  simp [KLAB_curCtrl_generate_outputY, KLAB_curCtrl_update_ssFunc]

/-- Under zero error the squared norm of the (y1, y2) output pair is a
fixed scalar times the squared norm of the (x1, x2) state pair. -/
theorem imp_outputY_norm (rotOmega fs : ℝ) (hfs : 0 < fs)
    (x : ℝ × ℝ × ℝ) :
    (KLAB_curCtrl_generate_outputY
        (KLAB_curCtrl_update_ssFunc rotOmega fs) x 0).2.1 ^ 2 +
      (KLAB_curCtrl_generate_outputY
        (KLAB_curCtrl_update_ssFunc rotOmega fs) x 0).2.2 ^ 2 =
      (2 * Real.sqrt fs) ^ 2 /
          (fs * 2 * (fs * 2) + 36 * rotOmega * rotOmega) *
        (x.2.1 ^ 2 + x.2.2 ^ 2) := by
  have h1' : fs * 2 * (fs * 2) + 36 * rotOmega * rotOmega ≠ 0 :=
    ne_of_gt (imp_sigma1_pos rotOmega fs hfs)
  simp only [KLAB_curCtrl_generate_outputY, KLAB_curCtrl_update_ssFunc]
  field_simp
  ring

/-- C1 counterexample: with the model discretized at target speed 1 and
sample rate 1 and the per-axis state (0, 1, 0), one zero-error tick does
not keep the state vector at its initial value: the state is rotated
(its second component becomes -4/5). -/
theorem c1_counterexample :
    KLAB_curCtrl_update_stateX (KLAB_curCtrl_update_ssFunc 1 1)
      (0, 1, 0) 0 ≠ ((0 : ℝ), 1, 0) := by
  intro h
  have h2 := congrArg (fun p : ℝ × ℝ × ℝ => p.2.1) h
  simp only [KLAB_curCtrl_update_stateX, KLAB_curCtrl_update_ssFunc] at h2
  norm_num at h2

/-- C1 (amended): under zero tracking error for arbitrarily many ticks,
the per-axis state does not decay to zero but is not held pointwise
either: the first state component stays constant, the (x1, x2) pair is
rotated with its squared norm exactly preserved, and correspondingly the
first output component of generate_outputY stays constant while the
(y1, y2) output pair keeps a constant squared norm. -/
theorem c1_imp_disturbance_hold (rotOmega fs : ℝ) (x : ℝ × ℝ × ℝ)
    (n : ℕ) (hfs : 0 < fs) :
    (KLAB_curCtrl_stateX_iter
        (KLAB_curCtrl_update_ssFunc rotOmega fs) 0 n x).1 = x.1 ∧
    (KLAB_curCtrl_stateX_iter
        (KLAB_curCtrl_update_ssFunc rotOmega fs) 0 n x).2.1 ^ 2 +
      (KLAB_curCtrl_stateX_iter
        (KLAB_curCtrl_update_ssFunc rotOmega fs) 0 n x).2.2 ^ 2 =
      x.2.1 ^ 2 + x.2.2 ^ 2 ∧
    (KLAB_curCtrl_generate_outputY (KLAB_curCtrl_update_ssFunc rotOmega fs)
        (KLAB_curCtrl_stateX_iter
          (KLAB_curCtrl_update_ssFunc rotOmega fs) 0 n x) 0).1 =
      (KLAB_curCtrl_generate_outputY
        (KLAB_curCtrl_update_ssFunc rotOmega fs) x 0).1 ∧
    (KLAB_curCtrl_generate_outputY (KLAB_curCtrl_update_ssFunc rotOmega fs)
        (KLAB_curCtrl_stateX_iter
          (KLAB_curCtrl_update_ssFunc rotOmega fs) 0 n x) 0).2.1 ^ 2 +
      (KLAB_curCtrl_generate_outputY (KLAB_curCtrl_update_ssFunc rotOmega fs)
        (KLAB_curCtrl_stateX_iter
          (KLAB_curCtrl_update_ssFunc rotOmega fs) 0 n x) 0).2.2 ^ 2 =
      (KLAB_curCtrl_generate_outputY
          (KLAB_curCtrl_update_ssFunc rotOmega fs) x 0).2.1 ^ 2 +
        (KLAB_curCtrl_generate_outputY
          (KLAB_curCtrl_update_ssFunc rotOmega fs) x 0).2.2 ^ 2 := by
  obtain ⟨h1, h2⟩ := imp_stateX_iter_zero_error rotOmega fs hfs n x
  refine ⟨h1, h2, ?_, ?_⟩
  · rw [imp_outputY_fst, imp_outputY_fst, h1]
  · rw [imp_outputY_norm rotOmega fs hfs, imp_outputY_norm rotOmega fs hfs,
      h2]

/-- C1 witness: the amended theorem applied with target speed 1, sample
rate 1, state (0, 1, 0) and two ticks. -/
theorem c1_witness :
    (0 : ℝ) < 1 ∧
      ((KLAB_curCtrl_stateX_iter (KLAB_curCtrl_update_ssFunc 1 1) 0 2
          ((0 : ℝ), 1, 0)).1 = ((0 : ℝ), 1, 0).1 ∧
       (KLAB_curCtrl_stateX_iter (KLAB_curCtrl_update_ssFunc 1 1) 0 2
          ((0 : ℝ), 1, 0)).2.1 ^ 2 +
         (KLAB_curCtrl_stateX_iter (KLAB_curCtrl_update_ssFunc 1 1) 0 2
          ((0 : ℝ), 1, 0)).2.2 ^ 2 =
         ((0 : ℝ), 1, 0).2.1 ^ 2 + ((0 : ℝ), 1, 0).2.2 ^ 2 ∧
       (KLAB_curCtrl_generate_outputY (KLAB_curCtrl_update_ssFunc 1 1)
          (KLAB_curCtrl_stateX_iter (KLAB_curCtrl_update_ssFunc 1 1) 0 2
            ((0 : ℝ), 1, 0)) 0).1 =
         (KLAB_curCtrl_generate_outputY (KLAB_curCtrl_update_ssFunc 1 1)
          ((0 : ℝ), 1, 0) 0).1 ∧
       (KLAB_curCtrl_generate_outputY (KLAB_curCtrl_update_ssFunc 1 1)
          (KLAB_curCtrl_stateX_iter (KLAB_curCtrl_update_ssFunc 1 1) 0 2
            ((0 : ℝ), 1, 0)) 0).2.1 ^ 2 +
         (KLAB_curCtrl_generate_outputY (KLAB_curCtrl_update_ssFunc 1 1)
          (KLAB_curCtrl_stateX_iter (KLAB_curCtrl_update_ssFunc 1 1) 0 2
            ((0 : ℝ), 1, 0)) 0).2.2 ^ 2 =
         (KLAB_curCtrl_generate_outputY (KLAB_curCtrl_update_ssFunc 1 1)
            ((0 : ℝ), 1, 0) 0).2.1 ^ 2 +
           (KLAB_curCtrl_generate_outputY (KLAB_curCtrl_update_ssFunc 1 1)
            ((0 : ℝ), 1, 0) 0).2.2 ^ 2) :=
  ⟨by norm_num, c1_imp_disturbance_hold 1 1 ((0 : ℝ), 1, 0) 2 (by norm_num)⟩

/-- Orthogonality of the complex exponentials over one period:
the sum of `exp(d k (2pi/n) i)` over `k < n` is `n` when `n` divides `d`
and `0` otherwise. -/
theorem exp_sum_orthogonal (n : ℕ) (hn : 0 < n) (d : ℤ) :
    ∑ k ∈ Finset.range n,
        Complex.exp ((((d : ℝ) * (k : ℝ) * (2 * π / n)) : ℝ) * Complex.I) =
      if (n : ℤ) ∣ d then (n : ℂ) else 0 := by
  have hn' : (n : ℝ) ≠ 0 := Nat.cast_ne_zero.mpr hn.ne'
  have hnC : (n : ℂ) ≠ 0 := Nat.cast_ne_zero.mpr hn.ne'
  by_cases hdvd : (n : ℤ) ∣ d
  · obtain ⟨c, rfl⟩ := hdvd
    rw [if_pos ⟨c, rfl⟩]
    have hone : ∀ k ∈ Finset.range n,
        Complex.exp (((((n : ℤ) * c : ℤ) : ℝ) * (k : ℝ) * (2 * π / n) : ℝ) *
          Complex.I) = 1 := by
      intro k _
      have harg : (((((n : ℤ) * c : ℤ) : ℝ) * (k : ℝ) * (2 * π / n) : ℝ) :
            ℂ) * Complex.I = ((c * k : ℤ) : ℂ) * (2 * π * Complex.I) := by
        push_cast
        field_simp [hnC]
        ring
      rw [harg, Complex.exp_int_mul_two_pi_mul_I]
    rw [Finset.sum_congr rfl hone]
    simp
  · rw [if_neg hdvd]
    set z := Complex.exp ((((d : ℝ) * (2 * π / n)) : ℝ) * Complex.I) with hz
    have hsummand : ∀ k : ℕ,
        Complex.exp ((((d : ℝ) * (k : ℝ) * (2 * π / n)) : ℝ) * Complex.I) =
          z ^ k := by
      intro k
      rw [hz, ← Complex.exp_nat_mul]
      congr 1
      push_cast
      ring
    have hz1 : z ≠ 1 := by
      intro h
      rw [hz, Complex.exp_eq_one_iff] at h
      obtain ⟨m, hm⟩ := h
      have hm' : (d : ℝ) * (2 * π / n) = (m : ℝ) * (2 * π) := by
        have h2 := congrArg Complex.im hm
        simpa using h2
      have hd : (d : ℝ) = (m : ℝ) * n := by
        have hπ : (π : ℝ) ≠ 0 := Real.pi_ne_zero
        field_simp at hm'
        nlinarith [hm', Real.pi_pos]
      have : d = m * n := by exact_mod_cast hd
      exact hdvd ⟨m, by rw [this, Int.mul_comm]⟩
    have hzn : z ^ n = 1 := by
      rw [hz, ← Complex.exp_nat_mul]
      have harg : (n : ℂ) * ((((d : ℝ) * (2 * π / n)) : ℝ) * Complex.I) =
          (d : ℂ) * (2 * π * Complex.I) := by
        push_cast
        field_simp [hnC]
        ring
      rw [harg, Complex.exp_int_mul_two_pi_mul_I]
    rw [Finset.sum_congr rfl fun k _ => hsummand k, geom_sum_eq hz1, hzn]
    simp

theorem cos_sum_orthogonal (n : ℕ) (hn : 0 < n) (d : ℤ) :
    ∑ k ∈ Finset.range n, Real.cos ((d : ℝ) * (k : ℝ) * (2 * π / n)) =
      if (n : ℤ) ∣ d then (n : ℝ) else 0 := by
  have h := congrArg Complex.re (exp_sum_orthogonal n hn d)
  rw [Complex.re_sum] at h
  simp only [Complex.exp_ofReal_mul_I_re] at h
  rwa [apply_ite Complex.re, Complex.natCast_re, Complex.zero_re] at h

theorem sin_sum_orthogonal (n : ℕ) (hn : 0 < n) (d : ℤ) :
    ∑ k ∈ Finset.range n, Real.sin ((d : ℝ) * (k : ℝ) * (2 * π / n)) = 0 := by
  have h := congrArg Complex.im (exp_sum_orthogonal n hn d)
  rw [Complex.im_sum] at h
  simp only [Complex.exp_ofReal_mul_I_im] at h
  rw [apply_ite Complex.im, Complex.natCast_im, Complex.zero_im] at h
  simpa using h

theorem fin_cos_delta (n : ℕ) (hn : 0 < n) (m j : Fin n) :
    ∑ i : Fin n,
        Real.cos (((m : ℝ) - (j : ℝ)) * (i : ℝ) * (2 * π / n)) =
      if m = j then (n : ℝ) else 0 := by
  have hdvd : ((n : ℤ) ∣ ((m : ℤ) - (j : ℤ))) ↔ m = j := by
    constructor
    · intro hd
      have habs : |(m : ℤ) - (j : ℤ)| < (n : ℤ) := by
        have hm := m.isLt
        have hj := j.isLt
        rw [abs_lt]
        omega
      have hz := Int.eq_zero_of_abs_lt_dvd hd habs
      exact Fin.ext (by omega)
    · rintro rfl
      simp
  have h := cos_sum_orthogonal n hn ((m : ℤ) - (j : ℤ))
  have hcast : ((((m : ℤ) - (j : ℤ)) : ℤ) : ℝ) = (m : ℝ) - (j : ℝ) := by
    push_cast
    rfl
  rw [hcast] at h
  rw [Fin.sum_univ_eq_sum_range
    (fun t : ℕ => Real.cos (((m : ℝ) - (j : ℝ)) * (t : ℝ) * (2 * π / n))), h]
  simp only [hdvd]

theorem fin_sin_delta (n : ℕ) (hn : 0 < n) (a b : Fin n) :
    ∑ i : Fin n,
        Real.sin (((a : ℝ) - (b : ℝ)) * (i : ℝ) * (2 * π / n)) = 0 := by
  have h := sin_sum_orthogonal n hn ((a : ℤ) - (b : ℤ))
  have hcast : ((((a : ℤ) - (b : ℤ)) : ℤ) : ℝ) = (a : ℝ) - (b : ℝ) := by
    push_cast
    rfl
  rw [hcast] at h
  rw [Fin.sum_univ_eq_sum_range
    (fun t : ℕ => Real.sin (((a : ℝ) - (b : ℝ)) * (t : ℝ) * (2 * π / n))), h]

theorem idft_dft_a (n : ℕ) (hn : 0 < n) (x y : Fin n → ℝ) (m : Fin n) :
    idft_a n (dft_a n x y) (dft_b n x y) m = x m := by
  have hn' : (n : ℝ) ≠ 0 := Nat.cast_ne_zero.mpr hn.ne'
  unfold idft_a dft_a dft_b
  have step1 : ∀ i : Fin n,
      Real.cos ((i : ℝ) * ((m : ℝ) * (2 * π / n))) *
          (∑ jj : Fin n,
            (Real.cos ((jj : ℝ) * ((i : ℝ) * (2 * π / n))) * x jj +
              Real.sin ((jj : ℝ) * ((i : ℝ) * (2 * π / n))) * y jj)) +
        -Real.sin ((i : ℝ) * ((m : ℝ) * (2 * π / n))) *
          (∑ jj : Fin n,
            (Real.cos ((jj : ℝ) * ((i : ℝ) * (2 * π / n))) * y jj -
              Real.sin ((jj : ℝ) * ((i : ℝ) * (2 * π / n))) * x jj)) =
      ∑ jj : Fin n,
        (Real.cos (((m : ℝ) - (jj : ℝ)) * (i : ℝ) * (2 * π / n)) * x jj +
          Real.sin (((jj : ℝ) - (m : ℝ)) * (i : ℝ) * (2 * π / n)) * y jj) := by
    intro i
    rw [Finset.mul_sum, Finset.mul_sum, ← Finset.sum_add_distrib]
    refine Finset.sum_congr rfl fun jj _ => ?_
    have e1 : ((m : ℝ) - (jj : ℝ)) * (i : ℝ) * (2 * π / n) =
        (i : ℝ) * ((m : ℝ) * (2 * π / n)) -
          (jj : ℝ) * ((i : ℝ) * (2 * π / n)) := by ring
    have e2 : ((jj : ℝ) - (m : ℝ)) * (i : ℝ) * (2 * π / n) =
        (jj : ℝ) * ((i : ℝ) * (2 * π / n)) -
          (i : ℝ) * ((m : ℝ) * (2 * π / n)) := by ring
    rw [e1, e2, Real.cos_sub, Real.sin_sub]
    ring
  rw [Finset.sum_congr rfl fun i _ => step1 i, Finset.sum_comm]
  have step3 : ∀ jj : Fin n,
      (∑ i : Fin n,
        (Real.cos (((m : ℝ) - (jj : ℝ)) * (i : ℝ) * (2 * π / n)) * x jj +
          Real.sin (((jj : ℝ) - (m : ℝ)) * (i : ℝ) * (2 * π / n)) * y jj)) =
      (if m = jj then (n : ℝ) else 0) * x jj := by
    intro jj
    rw [Finset.sum_add_distrib, ← Finset.sum_mul, ← Finset.sum_mul,
      fin_cos_delta n hn m jj, fin_sin_delta n hn jj m, zero_mul, add_zero]
  rw [Finset.sum_congr rfl fun jj _ => step3 jj]
  simp only [ite_mul, zero_mul, Finset.sum_ite_eq, Finset.mem_univ,
    if_true]
  field_simp

theorem idft_dft_b (n : ℕ) (hn : 0 < n) (x y : Fin n → ℝ) (m : Fin n) :
    idft_b n (dft_a n x y) (dft_b n x y) m = y m := by
  have hn' : (n : ℝ) ≠ 0 := Nat.cast_ne_zero.mpr hn.ne'
  unfold idft_b dft_a dft_b
  have step1 : ∀ i : Fin n,
      Real.cos ((i : ℝ) * ((m : ℝ) * (2 * π / n))) *
          (∑ jj : Fin n,
            (Real.cos ((jj : ℝ) * ((i : ℝ) * (2 * π / n))) * y jj -
              Real.sin ((jj : ℝ) * ((i : ℝ) * (2 * π / n))) * x jj)) -
        -Real.sin ((i : ℝ) * ((m : ℝ) * (2 * π / n))) *
          (∑ jj : Fin n,
            (Real.cos ((jj : ℝ) * ((i : ℝ) * (2 * π / n))) * x jj +
              Real.sin ((jj : ℝ) * ((i : ℝ) * (2 * π / n))) * y jj)) =
      ∑ jj : Fin n,
        (Real.cos (((m : ℝ) - (jj : ℝ)) * (i : ℝ) * (2 * π / n)) * y jj +
          Real.sin (((m : ℝ) - (jj : ℝ)) * (i : ℝ) * (2 * π / n)) * x jj) := by
    intro i
    rw [Finset.mul_sum, Finset.mul_sum, ← Finset.sum_sub_distrib]
    refine Finset.sum_congr rfl fun jj _ => ?_
    have e1 : ((m : ℝ) - (jj : ℝ)) * (i : ℝ) * (2 * π / n) =
        (i : ℝ) * ((m : ℝ) * (2 * π / n)) -
          (jj : ℝ) * ((i : ℝ) * (2 * π / n)) := by ring
    rw [e1, Real.cos_sub, Real.sin_sub]
    ring
  rw [Finset.sum_congr rfl fun i _ => step1 i, Finset.sum_comm]
  have step3 : ∀ jj : Fin n,
      (∑ i : Fin n,
        (Real.cos (((m : ℝ) - (jj : ℝ)) * (i : ℝ) * (2 * π / n)) * y jj +
          Real.sin (((m : ℝ) - (jj : ℝ)) * (i : ℝ) * (2 * π / n)) * x jj)) =
      (if m = jj then (n : ℝ) else 0) * y jj := by
    intro jj
    rw [Finset.sum_add_distrib, ← Finset.sum_mul, ← Finset.sum_mul,
      fin_cos_delta n hn m jj, fin_sin_delta n hn m jj, zero_mul, add_zero]
  rw [Finset.sum_congr rfl fun jj _ => step3 jj]
  simp only [ite_mul, zero_mul, Finset.sum_ite_eq, Finset.mem_univ,
    if_true]
  field_simp

/-- C8: for every real length-N_FFT sequence x (imaginary part 0),
applying the forward transform dft and then the inverse transform idft
reproduces x exactly in exact real arithmetic, and the imaginary output
is 0 — confirming the 1/N normalization and the negated-sine sign
convention of the inverse. -/
theorem c8_dft_idft_roundtrip (x : Fin N_FFT → ℝ) (k : Fin N_FFT) :
    idft_a N_FFT (dft_a N_FFT x 0) (dft_b N_FFT x 0) k = x k ∧
    idft_b N_FFT (dft_a N_FFT x 0) (dft_b N_FFT x 0) k = 0 := by
  have h1 := idft_dft_a N_FFT (by decide) x 0 k
  have h2 := idft_dft_b N_FFT (by decide) x 0 k
  exact ⟨h1, by simpa using h2⟩
